import Mathlib

/-!
Verification of the ColombiaCheck scraper
(`src/web_scrapping/colombiaChechk_scrapper.py`).

The HTML/DOM layer is modelled abstractly: an `Element` carries its stripped
text and its attribute list, a `Container` answers `select_one` queries, a
`Soup` answers `select` queries.  The network is modelled as an oracle from
attempt numbers to attempt outcomes (a response with a status code and a
parsed document, or a network-level exception).  Wall-clock sleeps are
recorded as a trace of durations (in seconds, as rationals).  The
filesystem sinks are modelled as pure functions returning the writes they
perform.
-/

namespace ColombiaCheck

/-- A DOM element as seen by the scraper: `getText` is
`get_text(strip=True)`, `attrs` backs `Tag.get`. -/
structure Element where
  getText : String
  attrs : List (String × String)
deriving DecidableEq

/-- `Tag.get(key)`: first value bound to `key`, if any. -/
def Element.get (el : Element) (key : String) : Option String :=
  (el.attrs.find? (fun p => p.1 = key)).map Prod.snd

/-- A listing container: answers `select_one` CSS queries. -/
structure Container where
  selectOne : String → Option Element

/-- A parsed page: answers `select` CSS queries. -/
structure Soup where
  select : String → List Container

/-- One scraped article (the dict `{title, description, url}`). -/
structure Article where
  title : String
  description : String
  url : String
deriving DecidableEq

/-! ### Fetcher: `get_html_requests` (lines 84–109) -/

/-- Outcome of one HTTP attempt: either a response (status code plus the
document that `BeautifulSoup` would parse from its body), or a
`requests.RequestException`. -/
inductive AttemptResult where
  | response (status : Nat) (doc : Soup)
  | netError

/-- The attempt is a retryable failure: a network exception, or a status
outside `[200, 300)`. -/
def attemptFails : AttemptResult → Bool
  | .response s _ => decide (s < 200 ∨ 300 ≤ s)
  | .netError => true

/-- The retry loop of `get_html_requests`, by remaining attempts.
`attempt` is the 1-based attempt counter; the second component of the
result is the trace of `time.sleep` durations in seconds. -/
def fetchGo (outcome : Nat → AttemptResult) (sleep_time : ℚ) :
    Nat → Nat → Option Soup × List ℚ
  | 0, _ => (none, [])
  | fuel + 1, attempt =>
    match outcome attempt with
    | .response s doc =>
      if 200 ≤ s ∧ s < 300 then
        (some doc, if sleep_time ≠ 0 then [sleep_time] else [])
      else
        let rest := fetchGo outcome sleep_time fuel (attempt + 1)
        (rest.1, (attempt : ℚ) / 2 :: rest.2)
    | .netError =>
      let rest := fetchGo outcome sleep_time fuel (attempt + 1)
      (rest.1, (attempt : ℚ) / 2 :: rest.2)

/-- `get_html_requests(url, sleep_time, timeout, max_retries)`: attempts
`1 .. max_retries`; returns the parsed document (sleeping `sleep_time`
after success when nonzero) or `none` after exhausting the attempts,
sleeping `0.5 * attempt` seconds after each failed attempt. -/
def get_html_requests (outcome : Nat → AttemptResult) (sleep_time : ℚ)
    (max_retries : Nat) : Option Soup × List ℚ :=
  fetchGo outcome sleep_time max_retries 1

/-! ### Field extractor: `parse_article` (lines 111–123) -/

/-- `parse_article(container, title_selector, body_selector)`: stripped
text of each selected element, `""` when the element is absent. -/
def parse_article (container : Container) (title_selector body_selector : String) :
    String × String :=
  ((match container.selectOne title_selector with
    | some el => el.getText
    | none => ""),
   (match container.selectOne body_selector with
    | some el => el.getText
    | none => ""))

/-! ### Pagination collector: `scrape_colombiacheck` (lines 125–180) -/

/-- `pre` is a prefix of the character sequence `cs`. -/
def charsStartWith : List Char → List Char → Bool
  | [], _ => true
  | _ :: _, [] => false
  | p :: ps, c :: cs => p = c && charsStartWith ps cs

/-- Python `s.startswith(pre)` (on code points). -/
def strStartsWith (s pre : String) : Bool :=
  charsStartWith pre.toList s.toList

def BASE_ORIGIN : String := "https://colombiacheck.com"

/-- `BASE_URL.format(page)` for `BASE_URL = "https://colombiacheck.com/chequeos?page=\x7b\x7d"`. -/
def buildUrl (page : Nat) : String :=
  "https://colombiacheck.com/chequeos?page=" ++ toString page

/-- Lines 156–157: prepend the base origin when the href is truthy and
does not start with `"http"`. -/
def resolveLink (href : String) : String :=
  if href ≠ "" ∧ strStartsWith href "http" = false then BASE_ORIGIN ++ href else href

def title_selector : String := "h3.Chequeo-texto-titulo"
def body_selector : String := "p.Chequeo-texto-parrafo"
def primary_selector : String := "div.Chequeo.Chequeo-fila"
def fallback_selector : String := "div.view-content .Chequeo"

/-- The inner `for cheque in cheques` loop (lines 150–174): threads the
accumulated articles and the seen-URL set, stopping early once `limit`
is reached. -/
def processContainers (limit : Nat) :
    List Container → List Article → List String → List Article × List String
  | [], arts, seen => (arts, seen)
  | cheque :: rest, arts, seen =>
    match cheque.selectOne "a" with
    | none => processContainers limit rest arts seen
    | some a_tag =>
      let link := resolveLink ((a_tag.get "href").getD "")
      if link = "" ∨ link ∈ seen then
        processContainers limit rest arts seen
      else
        let td := parse_article cheque title_selector body_selector
        let arts' := arts ++ [⟨td.1, td.2, link⟩]
        if limit ≤ arts'.length then (arts', link :: seen)
        else processContainers limit rest arts' (link :: seen)

/-- The `while len(articles) < limit and page <= max_pages` loop
(lines 136–178), with the remaining page budget as fuel. -/
def scrapeLoop (fetchUrl : String → Option Soup) (limit : Nat) :
    Nat → Nat → List Article → List String → List Article
  | 0, _, arts, _ => arts
  | fuel + 1, page, arts, seen =>
    if limit ≤ arts.length then arts
    else
      match fetchUrl (buildUrl page) with
      | none => arts
      | some soup =>
        let found := soup.select primary_selector
        let cheques := if found.isEmpty then soup.select fallback_selector else found
        if cheques.isEmpty then arts
        else
          let st := processContainers limit cheques arts seen
          scrapeLoop fetchUrl limit fuel (page + 1) st.1 st.2

/-- `scrape_colombiacheck(limit, max_pages, sleep_time)`, parametrised by
the fetch behaviour (`get_html_requests` applied to each page URL). -/
def scrape_colombiacheck (fetchUrl : String → Option Soup)
    (limit : Nat := 75) (max_pages : Nat := 30) : List Article :=
  scrapeLoop fetchUrl limit max_pages 1 [] []

/-! ### Persistence sinks: `save_articles` (21–43), `save_articles_csv` (45–75) -/

/-- Python `s.lower()` (over the ASCII range relevant here). -/
def pyLower (s : String) : String :=
  ⟨s.data.map Char.toLower⟩

/-- Line 58: `veracidad = 1 if label.lower() == "verdad" else 0`. -/
def veracityFlag (label : String) : Nat :=
  if pyLower label = "verdad" then 1 else 0

def csvHeader : List String := ["fuente", "titulo", "descripcion", "url", "veracidad"]

/-- One CSV data row (lines 67–73). -/
def csvRow (portal : String) (veracidad : Nat) (a : Article) : List String :=
  [portal, a.title, a.description, a.url, toString veracidad]

/-- `save_articles_csv`: `existing = none` models an absent ledger file
(append-mode open creates it and the header is written first);
`existing = some rows` models a present file with those rows.  Returns
the file's rows after the call. -/
def save_articles_csv (articles : List Article) (label portal : String)
    (existing : Option (List (List String))) : List (List String) :=
  let veracidad := veracityFlag label
  let prev := match existing with
    | none => [csvHeader]
    | some rows => rows
  prev ++ articles.map (csvRow portal veracidad)

/-- `str(idx).zfill(width)`. -/
def zfill (s : String) (width : Nat) : String :=
  if s.length < width then String.mk (List.replicate (width - s.length) '0') ++ s
  else s

/-- The four `f.write` calls of lines 38–41, concatenated. -/
def articleFileContent (portal : String) (a : Article) : String :=
  "Fuente: " ++ portal ++ "\n" ++
  "URL: " ++ a.url ++ "\n" ++
  "Título: " ++ a.title ++ "\n\n" ++
  "Descripción: " ++ a.description ++ "\n"

/-- The `for idx, article in enumerate(articles, 1)` loop of
`save_articles`: the list of `(filepath, content)` writes in order. -/
def save_articles_go (label portal base_dir : String) :
    Nat → List Article → List (String × String)
  | _, [] => []
  | idx, a :: rest =>
    (base_dir ++ "/" ++ label ++ "/" ++ portal ++ "_" ++ zfill (toString idx) 3 ++ ".txt",
     articleFileContent portal a) :: save_articles_go label portal base_dir (idx + 1) rest

/-- `save_articles(articles, label, portal, base_dir)`: the ordered writes
it performs. -/
def save_articles (articles : List Article) (label portal : String)
    (base_dir : String := "data_scraped") : List (String × String) :=
  save_articles_go label portal base_dir 1 articles

/-- `open(filepath, "w")` then write: the file named `w.1` now holds
exactly `w.2`, whatever it held before. -/
def applyWrite (fs : String → Option String) (w : String × String) :
    String → Option String :=
  fun n => if n = w.1 then some w.2 else fs n

/-! ### Lemmas about the inner container loop -/

theorem processContainers_fst_len (limit : Nat) :
    ∀ (cs : List Container) (arts : List Article) (seen : List String),
      (processContainers limit cs arts seen).1.length ≤ arts.length + cs.length := by
  intro cs
  induction cs with
  | nil => intro arts seen; simp [processContainers]
  | cons cheque rest ih =>
    intro arts seen
    cases hsel : cheque.selectOne "a" with
    | none =>
      simp only [processContainers, hsel]
      exact le_trans (ih arts seen) (by simp only [List.length_cons]; omega)
    | some a_tag =>
      simp only [processContainers, hsel]
      split_ifs with h1 h2
      · exact le_trans (ih arts seen) (by simp only [List.length_cons]; omega)
      · simp only [List.length_append, List.length_cons, List.length_nil]
        omega
      · have := ih (arts ++ [⟨(parse_article cheque title_selector body_selector).1,
          (parse_article cheque title_selector body_selector).2,
          resolveLink ((a_tag.get "href").getD "")⟩])
          (resolveLink ((a_tag.get "href").getD "") :: seen)
        simp only [List.length_append, List.length_cons, List.length_nil] at this ⊢
        omega

theorem processContainers_fst_le_limit (limit : Nat) :
    ∀ (cs : List Container) (arts : List Article) (seen : List String),
      arts.length < limit →
      (processContainers limit cs arts seen).1.length ≤ limit := by
  intro cs
  induction cs with
  | nil => intro arts seen h; simpa [processContainers] using Nat.le_of_lt h
  | cons cheque rest ih =>
    intro arts seen h
    cases hsel : cheque.selectOne "a" with
    | none => simp only [processContainers, hsel]; exact ih arts seen h
    | some a_tag =>
      simp only [processContainers, hsel]
      split_ifs with h1 h2
      · exact ih arts seen h
      · simp only [List.length_append, List.length_cons, List.length_nil] at h2 ⊢
        omega
      · apply ih
        simp only [List.length_append, List.length_cons, List.length_nil] at h2 ⊢
        omega

theorem scrapeLoop_len_bound (fetchUrl : String → Option Soup) (limit K : Nat)
    (hK : ∀ url soup, fetchUrl url = some soup →
      (soup.select primary_selector).length ≤ K ∧
      (soup.select fallback_selector).length ≤ K) :
    ∀ (fuel page : Nat) (arts : List Article) (seen : List String),
      arts.length ≤ limit →
      (scrapeLoop fetchUrl limit fuel page arts seen).length ≤ limit ∧
      (scrapeLoop fetchUrl limit fuel page arts seen).length ≤ arts.length + fuel * K := by
  intro fuel
  induction fuel with
  | zero =>
    intro page arts seen h
    simp only [scrapeLoop, Nat.zero_mul, Nat.add_zero]
    exact ⟨h, le_refl _⟩
  | succ fuel ih =>
    intro page arts seen h
    simp only [scrapeLoop]
    split_ifs with hlim
    · exact ⟨h, Nat.le_add_right _ _⟩
    · cases hf : fetchUrl (buildUrl page) with
      | none => exact ⟨h, Nat.le_add_right _ _⟩
      | some soup =>
        have hcheq : ∀ cheques : List Container,
            cheques.length ≤ K →
            (scrapeLoop fetchUrl limit fuel (page + 1)
                (processContainers limit cheques arts seen).1
                (processContainers limit cheques arts seen).2).length ≤ limit ∧
            (scrapeLoop fetchUrl limit fuel (page + 1)
                (processContainers limit cheques arts seen).1
                (processContainers limit cheques arts seen).2).length ≤
              arts.length + (fuel + 1) * K := by
          intro cheques hlen
          have hlt : arts.length < limit := by omega
          have hst1 : (processContainers limit cheques arts seen).1.length ≤ limit :=
            processContainers_fst_le_limit limit cheques arts seen hlt
          have hst2 : (processContainers limit cheques arts seen).1.length ≤
              arts.length + K :=
            le_trans (processContainers_fst_len limit cheques arts seen) (by omega)
          obtain ⟨ha, hb⟩ := ih (page + 1) (processContainers limit cheques arts seen).1
            (processContainers limit cheques arts seen).2 hst1
          refine ⟨ha, ?_⟩
          calc (scrapeLoop fetchUrl limit fuel (page + 1)
                (processContainers limit cheques arts seen).1
                (processContainers limit cheques arts seen).2).length
              ≤ (processContainers limit cheques arts seen).1.length + fuel * K := hb
            _ ≤ (arts.length + K) + fuel * K := Nat.add_le_add_right hst2 _
            _ = arts.length + (fuel + 1) * K := by ring
        cases hpe : (soup.select primary_selector).isEmpty with
        | false =>
          simp only [hpe, Bool.false_eq_true, if_false]
          exact hcheq _ (hK (buildUrl page) soup hf).1
        | true =>
          simp only [hpe, if_true]
          split_ifs with hfb
          · exact ⟨h, Nat.le_add_right _ _⟩
          · exact hcheq _ (hK (buildUrl page) soup hf).2

/-- C1: every run of `scrape_colombiacheck` returns at most `limit`
articles, and, when every fetched page offers at most `K` selectable
containers (under the primary as well as the fallback selector), at most
`max_pages * K` articles; nothing forces the result to reach `limit`. -/
theorem claim_C1_result_length_bounds (fetchUrl : String → Option Soup)
    (limit max_pages K : Nat)
    (hK : ∀ url soup, fetchUrl url = some soup →
      (soup.select primary_selector).length ≤ K ∧
      (soup.select fallback_selector).length ≤ K) :
    (scrape_colombiacheck fetchUrl limit max_pages).length ≤ limit ∧
    (scrape_colombiacheck fetchUrl limit max_pages).length ≤ max_pages * K := by
  have := scrapeLoop_len_bound fetchUrl limit K hK max_pages 1 [] [] (Nat.zero_le _)
  simpa [scrape_colombiacheck] using this

/-- The dedup invariant threaded through the loops: collected urls are
pairwise distinct, and each is a non-empty member of the seen-set. -/
def SeenInv (arts : List Article) (seen : List String) : Prop :=
  (arts.map Article.url).Nodup ∧ ∀ a ∈ arts, a.url ∈ seen ∧ a.url ≠ ""

theorem SeenInv.push (arts : List Article) (seen : List String) (t d link : String)
    (h : SeenInv arts seen) (hne : link ≠ "") (hns : link ∉ seen) :
    SeenInv (arts ++ [⟨t, d, link⟩]) (link :: seen) := by
  have hnotin : link ∉ arts.map Article.url := by
    intro hmem
    obtain ⟨a, ha, hau⟩ := List.mem_map.mp hmem
    exact hns (hau ▸ (h.2 a ha).1)
  constructor
  · rw [List.map_append]
    refine List.Nodup.append h.1 (List.nodup_singleton _) ?_
    intro x hx hx'
    simp only [List.map_cons, List.map_nil, List.mem_singleton] at hx'
    exact hnotin (hx' ▸ hx)
  · intro a ha
    rcases List.mem_append.mp ha with hold | hnew
    · exact ⟨List.mem_cons_of_mem _ (h.2 a hold).1, (h.2 a hold).2⟩
    · simp only [List.mem_singleton] at hnew
      subst hnew
      exact ⟨List.mem_cons_self _ _, hne⟩

theorem processContainers_inv (limit : Nat) :
    ∀ (cs : List Container) (arts : List Article) (seen : List String),
      SeenInv arts seen →
      SeenInv (processContainers limit cs arts seen).1
        (processContainers limit cs arts seen).2 ∧
      ∀ u ∈ seen, u ∈ (processContainers limit cs arts seen).2 := by
  intro cs
  induction cs with
  | nil =>
    intro arts seen h
    exact ⟨h, fun u hu => hu⟩
  | cons cheque rest ih =>
    intro arts seen h
    cases hsel : cheque.selectOne "a" with
    | none => simp only [processContainers, hsel]; exact ih arts seen h
    | some a_tag =>
      simp only [processContainers, hsel]
      split_ifs with h1 h2
      · exact ih arts seen h
      · push_neg at h1
        exact ⟨SeenInv.push arts seen _ _ _ h h1.1 h1.2, fun u hu => List.mem_cons_of_mem _ hu⟩
      · push_neg at h1
        have hpush := SeenInv.push arts seen
          (parse_article cheque title_selector body_selector).1
          (parse_article cheque title_selector body_selector).2
          (resolveLink ((a_tag.get "href").getD "")) h h1.1 h1.2
        obtain ⟨hi, hs⟩ := ih _ _ hpush
        exact ⟨hi, fun u hu => hs u (List.mem_cons_of_mem _ hu)⟩

theorem scrapeLoop_nodup (fetchUrl : String → Option Soup) (limit : Nat) :
    ∀ (fuel page : Nat) (arts : List Article) (seen : List String),
      SeenInv arts seen →
      ((scrapeLoop fetchUrl limit fuel page arts seen).map Article.url).Nodup ∧
      ∀ a ∈ scrapeLoop fetchUrl limit fuel page arts seen, a.url ≠ "" := by
  intro fuel
  induction fuel with
  | zero =>
    intro page arts seen h
    exact ⟨h.1, fun a ha => (h.2 a ha).2⟩
  | succ fuel ih =>
    intro page arts seen h
    simp only [scrapeLoop]
    split_ifs with hlim
    · exact ⟨h.1, fun a ha => (h.2 a ha).2⟩
    · cases hf : fetchUrl (buildUrl page) with
      | none => exact ⟨h.1, fun a ha => (h.2 a ha).2⟩
      | some soup =>
        have hrec : ∀ cheques : List Container,
            ((scrapeLoop fetchUrl limit fuel (page + 1)
              (processContainers limit cheques arts seen).1
              (processContainers limit cheques arts seen).2).map Article.url).Nodup ∧
            ∀ a ∈ scrapeLoop fetchUrl limit fuel (page + 1)
              (processContainers limit cheques arts seen).1
              (processContainers limit cheques arts seen).2, a.url ≠ "" := by
          intro cheques
          exact ih (page + 1) _ _ (processContainers_inv limit cheques arts seen h).1
        cases hpe : (soup.select primary_selector).isEmpty with
        | false =>
          simp only [hpe, Bool.false_eq_true, if_false]
          exact hrec _
        | true =>
          simp only [hpe, if_true]
          split_ifs with hfb
          · exact ⟨h.1, fun a ha => (h.2 a ha).2⟩
          · exact hrec _

/-- C2: the urls of the articles returned by one run are pairwise
distinct and non-empty; moreover a container whose resolved href is
already in the seen-set is skipped outright (so the first container in
document order with a given URL is the one that produces the article). -/
theorem claim_C2_urls_distinct_nonempty_first_wins
    (fetchUrl : String → Option Soup) (limit max_pages : Nat) :
    (((scrape_colombiacheck fetchUrl limit max_pages).map Article.url).Nodup ∧
      ∀ a ∈ scrape_colombiacheck fetchUrl limit max_pages, a.url ≠ "") ∧
    (∀ (lim : Nat) (cheque : Container) (rest : List Container)
        (arts : List Article) (seen : List String) (a_tag : Element),
      cheque.selectOne "a" = some a_tag →
      resolveLink ((a_tag.get "href").getD "") ∈ seen →
      processContainers lim (cheque :: rest) arts seen =
        processContainers lim rest arts seen) := by
  constructor
  · exact scrapeLoop_nodup fetchUrl limit max_pages 1 [] []
      ⟨List.nodup_nil, fun a ha => absurd ha (List.not_mem_nil a)⟩
  · intro lim cheque rest arts seen a_tag hsel hmem
    simp only [processContainers, hsel]
    rw [if_pos (Or.inr hmem)]

/-! ### Lemmas about the fetcher -/

theorem fetchGo_all_fail (outcome : Nat → AttemptResult) (st : ℚ) :
    ∀ (fuel start : Nat),
      (∀ i, start ≤ i → i < start + fuel → attemptFails (outcome i) = true) →
      fetchGo outcome st fuel start =
        (none, (List.range fuel).map fun j => ((start + j : Nat) : ℚ) / 2) := by
  intro fuel
  induction fuel with
  | zero => intro start h; simp [fetchGo]
  | succ fuel ih =>
    intro start h
    have h0 : attemptFails (outcome start) = true := h start le_rfl (by omega)
    have hrest : fetchGo outcome st fuel (start + 1) =
        (none, (List.range fuel).map fun j => ((start + 1 + j : Nat) : ℚ) / 2) :=
      ih (start + 1) (fun i h1 h2 => h i (by omega) (by omega))
    have hlist : ((start : Nat) : ℚ) / 2 ::
          ((List.range fuel).map fun j => ((start + 1 + j : Nat) : ℚ) / 2) =
        (List.range (fuel + 1)).map fun j => ((start + j : Nat) : ℚ) / 2 := by
      rw [List.range_succ_eq_map, List.map_cons, List.map_map]
      congr 1
      apply List.map_congr_left
      intro j hj
      simp only [Function.comp_apply]
      push_cast
      ring
    cases ho : outcome start with
    | netError =>
      simp only [fetchGo, ho, hrest]
      exact congrArg _ hlist
    | response s doc =>
      rw [ho] at h0
      simp only [attemptFails, decide_eq_true_eq] at h0
      have hns : ¬ (200 ≤ s ∧ s < 300) := by omega
      simp only [fetchGo, ho, if_neg hns, hrest]
      exact congrArg _ hlist

theorem get_html_requests_all_fail (outcome : Nat → AttemptResult) (st : ℚ)
    (max_retries : Nat)
    (h : ∀ i, 1 ≤ i → i ≤ max_retries → attemptFails (outcome i) = true) :
    get_html_requests outcome st max_retries =
      (none, (List.range max_retries).map fun j => ((j + 1 : Nat) : ℚ) / 2) := by
  unfold get_html_requests
  rw [fetchGo_all_fail outcome st max_retries 1 (fun i h1 h2 => h i h1 (by omega))]
  congr 1
  apply List.map_congr_left
  intro j hj
  congr 2
  omega

/-- C3: when every one of the `max_retries` attempts fails (network
exception or status outside `[200, 300)`), `get_html_requests` returns
`none` — no exception escapes — and the recorded sleeps are
`0.5 * 1, 0.5 * 2, …, 0.5 * max_retries` seconds. -/
theorem claim_C3_fetcher_exhausts_retries (outcome : Nat → AttemptResult)
    (st : ℚ) (max_retries : Nat)
    (h : ∀ i, 1 ≤ i → i ≤ max_retries → attemptFails (outcome i) = true) :
    (get_html_requests outcome st max_retries).1 = none ∧
    (get_html_requests outcome st max_retries).2 =
      (List.range max_retries).map fun j => ((j + 1 : Nat) : ℚ) / 2 := by
  rw [get_html_requests_all_fail outcome st max_retries h]
  exact ⟨rfl, rfl⟩

/-- C4: a `none` from the fetcher ends the pagination loop at once with
the articles accumulated so far; composed with a fetcher whose three
attempts all fail on page 1, the whole run returns `[]`. -/
theorem claim_C4_fetch_failure_ends_run
    (fetchUrl : String → Option Soup) (limit max_pages : Nat) :
    (∀ (fuel page : Nat) (arts : List Article) (seen : List String),
      arts.length < limit → fetchUrl (buildUrl page) = none →
      scrapeLoop fetchUrl limit (fuel + 1) page arts seen = arts) ∧
    (∀ (outcome : String → Nat → AttemptResult) (st : ℚ),
      (∀ i, 1 ≤ i → i ≤ 3 → attemptFails (outcome (buildUrl 1) i) = true) →
      scrape_colombiacheck (fun url => (get_html_requests (outcome url) st 3).1)
        limit max_pages = []) := by
  constructor
  · intro fuel page arts seen hlt hf
    simp only [scrapeLoop, hf]
    rw [if_neg (by omega)]
  · intro outcome st hfail
    have hn : (get_html_requests (outcome (buildUrl 1)) st 3).1 = none := by
      rw [get_html_requests_all_fail (outcome (buildUrl 1)) st 3 hfail]
    cases max_pages with
    | zero => rfl
    | succ n =>
      simp only [scrape_colombiacheck, scrapeLoop, List.length_nil, hn]
      split_ifs <;> rfl

/-! ### URL resolution, labels, extractor, CSV sink -/

/-- Modelled from the spec: "an href that already carries a scheme (such
as `https://other.site/x`)" — the string begins with a URI scheme, i.e.
a non-empty alphabetic scheme name followed by `"://"`.  Only the spec
speaks of schemes; the code tests the literal prefix `"http"`. -/
def hasSchemePrefix (s : String) : Bool :=
  let cs := s.toList
  let scheme := cs.takeWhile Char.isAlpha
  !scheme.isEmpty && decide (List.take 3 (cs.drop scheme.length) = [':', '/', '/'])

/-- C5 fails as stated: `"httpfoo/bar"` carries no scheme, yet the code
leaves it unchanged (it begins with the literal `"http"`), instead of
prepending the base origin. -/
theorem claim_C5_counterexample :
    hasSchemePrefix "httpfoo/bar" = false ∧
    resolveLink "httpfoo/bar" = "httpfoo/bar" ∧
    "httpfoo/bar" ≠ "https://colombiacheck.com" ++ "httpfoo/bar" := by
  decide

/-- C5 (amended): an href starting with the literal `"http"` (which
covers every `http://` and `https://` URL) is left unchanged; a
non-empty href not starting with `"http"` gets the fixed base origin
prepended — in particular `/chequeos/123` resolves to
`https://colombiacheck.com/chequeos/123` and `https://other.site/x` is
unchanged. -/
theorem claim_C5_href_resolution (href : String) :
    (strStartsWith href "http" = true → resolveLink href = href) ∧
    (href ≠ "" → strStartsWith href "http" = false →
      resolveLink href = "https://colombiacheck.com" ++ href) ∧
    resolveLink "/chequeos/123" = "https://colombiacheck.com/chequeos/123" ∧
    resolveLink "https://other.site/x" = "https://other.site/x" := by
  refine ⟨fun hs => ?_, fun hne hs => ?_, by decide, by decide⟩
  · simp [resolveLink, hs]
  · simp [resolveLink, hne, hs, BASE_ORIGIN]

/-- C6: the veracity flag written by the CSV sink is 1 exactly when the
label lowercases to the truth value `"verdad"`, and 0 when it lowercases
to the falsehood value `"falso"`. -/
theorem claim_C6_veracity_flag (label : String) :
    (pyLower label = "verdad" → veracityFlag label = 1) ∧
    (pyLower label = "falso" → veracityFlag label = 0) := by
  constructor
  · intro h; simp [veracityFlag, h]
  · intro h; simp [veracityFlag, h]

/-- C7: calling the CSV sink twice against an initially absent ledger
file yields the header row exactly once (because only the first call
finds the file absent), followed by the two batches of data rows in call
order, each row `[portal, title, description, url, flag]`. -/
theorem claim_C7_csv_header_once (as1 as2 : List Article) (l1 l2 p1 p2 : String) :
    save_articles_csv as2 l2 p2 (some (save_articles_csv as1 l1 p1 none)) =
      csvHeader ::
        (as1.map (csvRow p1 (veracityFlag l1)) ++
         as2.map (csvRow p2 (veracityFlag l2))) := by
  simp [save_articles_csv]

/-- C8: the field extractor is total: a missing title element yields
`title = ""`, a missing body element yields `description = ""`, and a
present element yields its stripped text. -/
theorem claim_C8_extractor_defaults (c : Container) (ts bs : String) :
    (c.selectOne ts = none → (parse_article c ts bs).1 = "") ∧
    (c.selectOne bs = none → (parse_article c ts bs).2 = "") ∧
    (∀ el, c.selectOne ts = some el → (parse_article c ts bs).1 = el.getText) ∧
    (∀ el, c.selectOne bs = some el → (parse_article c ts bs).2 = el.getText) := by
  refine ⟨fun h => ?_, fun h => ?_, fun el h => ?_, fun el h => ?_⟩ <;>
    simp [parse_article, h]

/-! ### File sink -/

theorem save_articles_go_len (label portal base_dir : String) :
    ∀ (as : List Article) (start : Nat),
      (save_articles_go label portal base_dir start as).length = as.length := by
  intro as
  induction as with
  | nil => intro start; rfl
  | cons a rest ih => intro start; simp [save_articles_go, ih]

theorem save_articles_go_get (label portal base_dir : String) :
    ∀ (as : List Article) (start i : Nat) (a : Article), as[i]? = some a →
      (save_articles_go label portal base_dir start as)[i]? =
        some (base_dir ++ "/" ++ label ++ "/" ++ portal ++ "_" ++
            zfill (toString (start + i)) 3 ++ ".txt",
          articleFileContent portal a) := by
  intro as
  induction as with
  | nil => intro start i a h; simp at h
  | cons b rest ih =>
    intro start i a h
    cases i with
    | zero =>
      simp only [List.getElem?_cons_zero, Option.some_inj] at h
      subst h
      simp [save_articles_go]
    | succ i =>
      simp only [List.getElem?_cons_succ] at h
      have harith : start + 1 + i = start + (i + 1) := by omega
      have := ih (start + 1) i a h
      rw [harith] at this
      simpa [save_articles_go] using this

/-- C9: the file sink performs one write per article, in production
order; the write for the article at 1-based position `i` is the file
`<base>/<label>/<portal>_<i zero-padded to 3>.txt` holding the source
line, the URL line, the title line, a blank line and the description
line; and a write replaces whatever the target file held before. -/
theorem claim_C9_file_sink_naming (as : List Article) (label portal base_dir : String) :
    (save_articles as label portal base_dir).length = as.length ∧
    (∀ (i : Nat) (a : Article), as[i]? = some a →
      (save_articles as label portal base_dir)[i]? =
        some (base_dir ++ "/" ++ label ++ "/" ++ portal ++ "_" ++
            zfill (toString (i + 1)) 3 ++ ".txt",
          articleFileContent portal a)) ∧
    (∀ (fs : String → Option String) (name content : String),
      applyWrite fs (name, content) name = some content) := by
  refine ⟨save_articles_go_len label portal base_dir as 1, ?_, ?_⟩
  · intro i a h
    have := save_articles_go_get label portal base_dir as 1 i a h
    rwa [Nat.add_comm 1 i] at this
  · intro fs name content
    simp [applyWrite]

/-! ### Termination of the pagination loop -/

/-- `scrapeLoop` instrumented with the list of pages it fetches. -/
def scrapeLoopPages (fetchUrl : String → Option Soup) (limit : Nat) :
    Nat → Nat → List Article → List String → List Article × List Nat
  | 0, _, arts, _ => (arts, [])
  | fuel + 1, page, arts, seen =>
    if limit ≤ arts.length then (arts, [])
    else
      match fetchUrl (buildUrl page) with
      | none => (arts, [page])
      | some soup =>
        let found := soup.select primary_selector
        let cheques := if found.isEmpty then soup.select fallback_selector else found
        if cheques.isEmpty then (arts, [page])
        else
          let st := processContainers limit cheques arts seen
          let r := scrapeLoopPages fetchUrl limit fuel (page + 1) st.1 st.2
          (r.1, page :: r.2)

theorem scrapeLoopPages_spec (fetchUrl : String → Option Soup) (limit : Nat) :
    ∀ (fuel page : Nat) (arts : List Article) (seen : List String),
      (scrapeLoopPages fetchUrl limit fuel page arts seen).1 =
        scrapeLoop fetchUrl limit fuel page arts seen ∧
      (scrapeLoopPages fetchUrl limit fuel page arts seen).2 =
        List.range' page (scrapeLoopPages fetchUrl limit fuel page arts seen).2.length ∧
      (scrapeLoopPages fetchUrl limit fuel page arts seen).2.length ≤ fuel := by
  intro fuel
  induction fuel with
  | zero =>
    intro page arts seen
    exact ⟨rfl, rfl, le_refl _⟩
  | succ fuel ih =>
    intro page arts seen
    simp only [scrapeLoopPages, scrapeLoop]
    split_ifs with hlim
    · exact ⟨rfl, rfl, Nat.zero_le _⟩
    · cases hf : fetchUrl (buildUrl page) with
      | none => exact ⟨rfl, by simp [List.range'], Nat.le_add_left _ _⟩
      | some soup =>
        have hrec : ∀ cheques : List Container,
            ((scrapeLoopPages fetchUrl limit fuel (page + 1)
                (processContainers limit cheques arts seen).1
                (processContainers limit cheques arts seen).2).1 =
              scrapeLoop fetchUrl limit fuel (page + 1)
                (processContainers limit cheques arts seen).1
                (processContainers limit cheques arts seen).2 ∧
            (page :: (scrapeLoopPages fetchUrl limit fuel (page + 1)
                (processContainers limit cheques arts seen).1
                (processContainers limit cheques arts seen).2).2) =
              List.range' page
                (page :: (scrapeLoopPages fetchUrl limit fuel (page + 1)
                  (processContainers limit cheques arts seen).1
                  (processContainers limit cheques arts seen).2).2).length ∧
            (page :: (scrapeLoopPages fetchUrl limit fuel (page + 1)
                (processContainers limit cheques arts seen).1
                (processContainers limit cheques arts seen).2).2).length ≤ fuel + 1) := by
          intro cheques
          obtain ⟨h1, h2, h3⟩ := ih (page + 1)
            (processContainers limit cheques arts seen).1
            (processContainers limit cheques arts seen).2
          refine ⟨h1, ?_, by simp only [List.length_cons]; omega⟩
          simp only [List.length_cons, List.range'_succ]
          exact congrArg (page :: ·) h2
        cases hpe : (soup.select primary_selector).isEmpty with
        | false =>
          simp only [hpe, Bool.false_eq_true, if_false]
          exact hrec _
        | true =>
          simp only [hpe, if_true]
          split_ifs with hfb
          · exact ⟨rfl, by simp [List.range'], Nat.le_add_left _ _⟩
          · exact hrec _

/-- C10: the pagination loop terminates: one run fetches the
consecutively increasing pages `1, 2, …`, at most `max_pages` of them,
and computes exactly the run's article list; each page contributes the
finite list of containers its selectors match. -/
theorem claim_C10_collector_terminates (fetchUrl : String → Option Soup)
    (limit max_pages : Nat) :
    (scrapeLoopPages fetchUrl limit max_pages 1 [] []).1 =
      scrape_colombiacheck fetchUrl limit max_pages ∧
    (scrapeLoopPages fetchUrl limit max_pages 1 [] []).2 =
      List.range' 1 (scrapeLoopPages fetchUrl limit max_pages 1 [] []).2.length ∧
    (scrapeLoopPages fetchUrl limit max_pages 1 [] []).2.length ≤ max_pages :=
  scrapeLoopPages_spec fetchUrl limit max_pages 1 [] []

/-! ### Concrete fixtures and witnesses -/

/-- An anchor element carrying an href. -/
def elA (href : String) : Element := ⟨"", [("href", href)]⟩

/-- A listing container with an anchor, a title and a body. -/
def mkContainer (href t d : String) : Container :=
  ⟨fun s =>
    if s = "a" then some (elA href)
    else if s = title_selector then some ⟨t, []⟩
    else if s = body_selector then some ⟨d, []⟩
    else none⟩

/-- A page whose primary selector matches three containers, two of them
resolving to the same URL. -/
def testSoup : Soup :=
  ⟨fun s =>
    if s = primary_selector then
      [mkContainer "/a1" "T1" "D1", mkContainer "/a1" "T2" "D2",
       mkContainer "https://x/y" "T3" "D3"]
    else []⟩

/-- A fetch behaviour: page 1 succeeds with `testSoup`, everything else
fails. -/
def testFetch : String → Option Soup :=
  fun url => if url = buildUrl 1 then some testSoup else none

/-- A container with a body element but no title element. -/
def noTitleContainer : Container :=
  ⟨fun s => if s = body_selector then some ⟨"Body", []⟩ else none⟩

theorem claim_C1_witness :
    (scrape_colombiacheck testFetch 10 3).length ≤ 10 ∧
    (scrape_colombiacheck testFetch 10 3).length ≤ 3 * 3 := by
  have hK : ∀ url soup, testFetch url = some soup →
      (soup.select primary_selector).length ≤ 3 ∧
      (soup.select fallback_selector).length ≤ 3 := by
    intro url soup h
    unfold testFetch at h
    split at h
    · injection h with h
      subst h
      exact ⟨by decide, by decide⟩
    · cases h
  exact claim_C1_result_length_bounds testFetch 10 3 3 hK

theorem claim_C2_witness :
    ((scrape_colombiacheck testFetch 10 3).map Article.url).Nodup ∧
    (⟨"T1", "D1", "https://colombiacheck.com/a1"⟩ : Article).url ≠ "" ∧
    processContainers 5 [mkContainer "/a1" "TX" "DX"] []
        ["https://colombiacheck.com/a1"] =
      processContainers 5 [] [] ["https://colombiacheck.com/a1"] := by
  obtain ⟨⟨h1, h1'⟩, h2⟩ := claim_C2_urls_distinct_nonempty_first_wins testFetch 10 3
  refine ⟨h1, h1' _ (by decide), ?_⟩
  exact h2 5 (mkContainer "/a1" "TX" "DX") [] [] ["https://colombiacheck.com/a1"]
    (elA "/a1") rfl (by decide)

theorem claim_C3_witness :
    (get_html_requests (fun _ => AttemptResult.netError) 1 3).1 = none ∧
    (get_html_requests (fun _ => AttemptResult.netError) 1 3).2 =
      [(1 : ℚ) / 2, 1, 3 / 2] := by
  obtain ⟨h1, h2⟩ := claim_C3_fetcher_exhausts_retries
    (fun _ => AttemptResult.netError) 1 3 (fun i hi hi' => rfl)
  refine ⟨h1, ?_⟩
  rw [h2]
  norm_num [List.range_succ]

theorem claim_C4_witness :
    scrapeLoop (fun _ => none) 5 3 1 [⟨"t", "d", "u"⟩] [] = [⟨"t", "d", "u"⟩] ∧
    scrape_colombiacheck
      (fun url => (get_html_requests (fun _ => AttemptResult.netError) 0 3).1)
      5 3 = [] := by
  obtain ⟨h1, h2⟩ := claim_C4_fetch_failure_ends_run (fun _ => none) 5 3
  exact ⟨h1 2 1 [⟨"t", "d", "u"⟩] [] (by decide) rfl,
    h2 (fun _ _ => AttemptResult.netError) 0 (fun i hi hi' => rfl)⟩

theorem claim_C5_witness :
    resolveLink "https://other.site/x" = "https://other.site/x" ∧
    resolveLink "/chequeos/123" = "https://colombiacheck.com/chequeos/123" :=
  ⟨(claim_C5_href_resolution "https://other.site/x").1 (by decide),
   (claim_C5_href_resolution "/chequeos/123").2.1 (by decide) (by decide)⟩

theorem claim_C6_witness :
    veracityFlag "VeRdAd" = 1 ∧ veracityFlag "FALSO" = 0 :=
  ⟨(claim_C6_veracity_flag "VeRdAd").1 (by decide),
   (claim_C6_veracity_flag "FALSO").2 (by decide)⟩

theorem claim_C8_witness :
    (parse_article noTitleContainer title_selector body_selector).1 = "" ∧
    (parse_article noTitleContainer title_selector body_selector).2 = "Body" := by
  obtain ⟨h1, h2, h3, h4⟩ :=
    claim_C8_extractor_defaults noTitleContainer title_selector body_selector
  exact ⟨h1 (by decide), h4 ⟨"Body", []⟩ (by decide)⟩

theorem claim_C9_witness :
    (save_articles [⟨"t1", "d1", "u1"⟩, ⟨"t2", "d2", "u2"⟩, ⟨"t3", "d3", "u3"⟩]
      "falso" "colombiaCheck" "data_scraped").length = 3 ∧
    (save_articles [⟨"t1", "d1", "u1"⟩, ⟨"t2", "d2", "u2"⟩, ⟨"t3", "d3", "u3"⟩]
      "falso" "colombiaCheck" "data_scraped")[2]? =
      some ("data_scraped/falso/colombiaCheck_003.txt",
        articleFileContent "colombiaCheck" ⟨"t3", "d3", "u3"⟩) := by
  obtain ⟨h1, h2, h3⟩ := claim_C9_file_sink_naming
    [⟨"t1", "d1", "u1"⟩, ⟨"t2", "d2", "u2"⟩, ⟨"t3", "d3", "u3"⟩]
    "falso" "colombiaCheck" "data_scraped"
  exact ⟨h1, h2 2 ⟨"t3", "d3", "u3"⟩ (by decide)⟩

end ColombiaCheck
